import Mathlib

/-!
Verification of the parcel client document-transfer and pagination core.

The provided sources contain the integration tests of the transfer subsystem,
the identity resource module, and an example program.  The downloader,
multipart upload encoder, HTTP redirect resolver and paginator themselves are
not among the provided sources, so those components are modelled here from the
specification; the identity module and the test sink are embedded from the
sources directly.  Bytes are natural numbers, a chunk is a list of bytes, and
asynchronous consumption loops are explicit recursive functions.
-/

namespace Parcel

/-- A byte of a document payload. -/
abbrev Byte := Nat

/-- A bounded unit of binary data transferred over a stream. -/
abbrev Chunk := List Byte

/-- A single HTTP request: method, target URL and the authorization header. -/
structure HttpRequest where
  method : String
  url : String
  authHeader : String
deriving DecidableEq, Repr

/-- A transport-level response: status, optional location header, the body as
a sequence of chunks, the textual error body of a failed request, and an
optional transport read failure that occurs after the listed chunks. -/
structure HttpResponse where
  status : Nat
  location : Option String
  chunks : List Chunk
  errorBody : String
  readError : Option String
deriving DecidableEq, Repr

/-- Statuses 3xx indicate a redirect. -/
def isRedirectStatus (s : Nat) : Bool :=
  decide (300 ≤ s) && decide (s < 400)

/-- Statuses 2xx indicate success. -/
def isSuccessStatus (s : Nat) : Bool :=
  decide (200 ≤ s) && decide (s < 300)

/-- Modelled from the spec: the Redirect Resolver (the HTTP client layer is
absent from the provided sources).  Given a response with a redirect status
and a location header, it re-issues the request at the new location at most
once per logical call, preserving method and authorization header.  The
second component logs every request issued, in order. -/
def resolveRedirect (transport : HttpRequest → HttpResponse) (req : HttpRequest) :
    HttpResponse × List HttpRequest :=
  let resp := transport req
  match resp.location, isRedirectStatus resp.status with
  | some loc, true =>
    let req2 : HttpRequest := { req with url := loc }
    (transport req2, [req, req2])
  | _, _ => (resp, [req])

/-- Abort state of a download session. -/
inductive SessionState where
  | active
  | aborted
  | done
  | failed
deriving DecidableEq, Repr

/-- Failures surfaced by a download session, mirroring the error kinds of the
spec: an HTTP status failure embedding status and textual body, a transport
read failure, a user abort, and a write failure of a caller-supplied sink. -/
inductive DownloadError where
  | http (status : Nat) (body : String)
  | network (message : String)
  | aborted
  | sink (message : String)
deriving DecidableEq, Repr

/-- Modelled from the spec: a DownloadSession after its (lazy) request has
been resolved: the response status and error body, a pending transport read
failure, the chunks not yet handed to the consumer, and the abort state. -/
structure DownloadSession where
  status : Nat
  errorBody : String
  readError : Option String
  remaining : List Chunk
  state : SessionState
deriving DecidableEq, Repr

/-- Start consuming a resolved response: all chunks are still pending and the
session is active. -/
def startSession (resp : HttpResponse) : DownloadSession :=
  { status := resp.status, errorBody := resp.errorBody, readError := resp.readError,
    remaining := resp.chunks, state := SessionState.active }

/-- The GET request against the storage download endpoint for a document id. -/
def downloadRequest (storageBase auth id : String) : HttpRequest :=
  { method := "GET", url := storageBase ++ "/" ++ id ++ "/download", authHeader := auth }

/-- Modelled from the spec: downloadDocument issues a GET against the storage
endpoint for the document id, resolves at most one redirect hop, and exposes
the resulting session (the document module is absent from the provided
sources; only its tests are). -/
def downloadDocument (transport : HttpRequest → HttpResponse)
    (storageBase auth id : String) : DownloadSession :=
  startSession (resolveRedirect transport (downloadRequest storageBase auth id)).1

/-- Modelled from the spec: one pull of the session.  An aborted session
rejects with the abort error; a non-2xx status fails before any chunk is
delivered, embedding status and error body; otherwise the next pending chunk
is handed over, or end of stream is signalled (or a pending transport read
failure is surfaced). -/
def pull (s : DownloadSession) : Except DownloadError (Option Chunk × DownloadSession) :=
  match s.state with
  | SessionState.aborted => Except.error DownloadError.aborted
  | SessionState.failed => Except.error (DownloadError.http s.status s.errorBody)
  | SessionState.done => Except.ok (none, s)
  | SessionState.active =>
    if isSuccessStatus s.status then
      match s.remaining with
      | [] =>
        match s.readError with
        | some m => Except.error (DownloadError.network m)
        | none => Except.ok (none, { s with state := SessionState.done })
      | c :: rest => Except.ok (some c, { s with remaining := rest })
    else Except.error (DownloadError.http s.status s.errorBody)

/-- Modelled from the spec: abort flips an active session to the aborted
state and discards every chunk not yet handed to the consumer; on an already
aborted, done or failed session it is a no-op (idempotent). -/
def abort (s : DownloadSession) : DownloadSession :=
  match s.state with
  | SessionState.active => { s with state := SessionState.aborted, remaining := [] }
  | _ => s

/-- The aborted flag exposed by a download session. -/
def abortedFlag (s : DownloadSession) : Bool :=
  match s.state with
  | SessionState.aborted => true
  | _ => false

/-- An active session on a given status, error body, pending read failure and
chunk sequence. -/
def activeDownload (status : Nat) (eb : String) (re : Option String)
    (chunks : List Chunk) : DownloadSession :=
  { status := status, errorBody := eb, readError := re,
    remaining := chunks, state := SessionState.active }

/-- Pull-iterate the session to exhaustion and concatenate the chunks. -/
def pullAll (s : DownloadSession) : Except DownloadError (List Byte) :=
  match h : pull s with
  | Except.error e => Except.error e
  | Except.ok (none, _) => Except.ok []
  | Except.ok (some c, s2) =>
    match pullAll s2 with
    | Except.error e => Except.error e
    | Except.ok rest => Except.ok (c ++ rest)
termination_by s.remaining.length
decreasing_by
  obtain ⟨status, eb, re, rem, st⟩ := s
  rcases st
  · simp only [pull] at h
    split at h
    · rcases rem with _ | ⟨c0, rest⟩
      · rcases re with _ | m <;> simp at h
      · simp only [Except.ok.injEq, Prod.mk.injEq, Option.some.injEq] at h
        rw [← h.2]
        exact Nat.lt_succ_self rest.length
    · simp at h
  · simp [pull] at h
  · simp [pull] at h
  · simp [pull] at h

/-- Modelled from the spec: push-to-sink consumption.  The loop pulls a chunk
and hands it to the caller-supplied write operation; a write failure is
forwarded as a sink error with its message preserved.  The sink state is
returned alongside the outcome, since the caller owns the sink and can
inspect what it received even after a failure. -/
def pipeTo {σ : Type} (write : σ → Chunk → Except String σ) (acc : σ)
    (s : DownloadSession) : Except DownloadError Unit × σ :=
  match h : pull s with
  | Except.error e => (Except.error e, acc)
  | Except.ok (none, _) => (Except.ok (), acc)
  | Except.ok (some c, s2) =>
    match write acc c with
    | Except.error m => (Except.error (DownloadError.sink m), acc)
    | Except.ok acc2 => pipeTo write acc2 s2
termination_by s.remaining.length
decreasing_by
  obtain ⟨status, eb, re, rem, st⟩ := s
  rcases st
  · simp only [pull] at h
    split at h
    · rcases rem with _ | ⟨c0, rest⟩
      · rcases re with _ | m <;> simp at h
      · simp only [Except.ok.injEq, Prod.mk.injEq, Option.some.injEq] at h
        rw [← h.2]
        exact Nat.lt_succ_self rest.length
    · simp at h
  · simp [pull] at h
  · simp [pull] at h
  · simp [pull] at h

/-- Modelled from the spec: a pipe during which the caller aborts the session
from outside the consumption loop after k chunks have been handed to the
sink; the remainder of the pipe then runs against the aborted session. -/
def pipeToAbortAfter {σ : Type} (write : σ → Chunk → Except String σ) :
    σ → Nat → DownloadSession → Except DownloadError Unit × σ
  | acc, 0, s => pipeTo write acc (abort s)
  | acc, k + 1, s =>
    match pull s with
    | Except.error e => (Except.error e, acc)
    | Except.ok (none, _) => (Except.ok (), acc)
    | Except.ok (some c, s2) =>
      match write acc c with
      | Except.error m => (Except.error (DownloadError.sink m), acc)
      | Except.ok acc2 => pipeToAbortAfter write acc2 k s2

/-- Embedding of the DownloadCollector test sink: each written chunk is
appended to the collected buffer and the write is acknowledged. -/
def collectSink (acc : List Byte) (c : Chunk) : Except String (List Byte) :=
  Except.ok (acc ++ c)

/-- Embedding of the DownloadCollector test sink constructed with an error
option: every write fails with the configured message. -/
def failingSink (message : String) (_acc : List Byte) (_c : Chunk) :
    Except String (List Byte) :=
  Except.error message

/-- The body of one part of a multipart request: either text or raw bytes. -/
inductive PartBody where
  | text (s : String)
  | bytes (b : List Byte)
deriving DecidableEq, Repr

/-- One part of a multipart body: field name, content type, content. -/
structure MultipartPart where
  name : String
  contentType : String
  content : PartBody
deriving DecidableEq, Repr

/-- A multipart request: the content-type header carrying the boundary token,
and the parts in order. -/
structure MultipartRequest where
  contentTypeHeader : String
  parts : List MultipartPart
deriving DecidableEq, Repr

/-- Modelled from the spec: the metadata part of a document upload (the
upload encoder is absent from the provided sources).  When the serialized
params JSON is present the part carries it with content type
application/json; when params is null the part is empty with content type
text/plain. -/
def metadataPart (params : Option String) : MultipartPart :=
  match params with
  | some json =>
    { name := "metadata", contentType := "application/json", content := PartBody.text json }
  | none =>
    { name := "metadata", contentType := "text/plain", content := PartBody.text "" }

/-- The data part of a document upload: the raw payload bytes with content
type application/octet-stream. -/
def dataPart (data : List Byte) : MultipartPart :=
  { name := "data", contentType := "application/octet-stream", content := PartBody.bytes data }

/-- Modelled from the spec: the multipart upload encoder for an in-memory
buffer: a single body with exactly the metadata part and the data part, under
a content-type header carrying the boundary token. -/
def encodeUpload (boundary : String) (params : Option String) (data : List Byte) :
    MultipartRequest :=
  { contentTypeHeader := "multipart/form-data; boundary=" ++ boundary,
    parts := [metadataPart params, dataPart data] }

/-- Modelled from the spec: the multipart upload encoder for an incremental
source: the chunks of the source are fed to the data part one by one, in
order, without knowing the total length up front. -/
def encodeUploadStream (boundary : String) (params : Option String)
    (chunks : List Chunk) : MultipartRequest :=
  { contentTypeHeader := "multipart/form-data; boundary=" ++ boundary,
    parts := [metadataPart params,
              dataPart (chunks.foldl (fun acc c => acc ++ c) [])] }

/-- The server response to an upload: status and body (on success the body is
the created-document representation, otherwise the error detail). -/
structure UploadResponse where
  status : Nat
  body : String
deriving DecidableEq, Repr

/-- Failure of an upload task: the response status with the body surfaced as
the error detail. -/
inductive UploadError where
  | http (status : Nat) (body : String)
deriving DecidableEq, Repr

/-- Modelled from the spec: completion of an UploadTask.  Only a 201 response
resolves the task, with the created-document representation; any other status
rejects it with the response body as error detail. -/
def finishUpload (resp : UploadResponse) : Except UploadError String :=
  if resp.status = 201 then Except.ok resp.body
  else Except.error (UploadError.http resp.status resp.body)

/-- Modelled from the spec: an UploadTask as returned immediately by
uploadDocument: the encoded multipart request, and the completion observed
solely by awaiting finished, which is a function of the server response and
hence can only produce a handle once a response exists. -/
structure UploadTask where
  request : MultipartRequest
  finished : UploadResponse → Except UploadError String

/-- Modelled from the spec: uploadDocument encodes the params and payload
into a multipart request and returns the task without blocking. -/
def uploadDocument (boundary : String) (params : Option String) (data : List Byte) :
    UploadTask :=
  { request := encodeUpload boundary params data, finished := finishUpload }

/-- A batch of typed records plus the opaque next-page cursor token, as in
the model module. -/
structure Page (α : Type) where
  results : List α
  nextPageToken : Option String
deriving DecidableEq, Repr

/-- Embedding of the identities endpoint constant of the identity module. -/
def IDENTITIES_EP : String := "identities"

/-- Embedding of endpointForId from the identity module. -/
def endpointForId (id : String) : String := IDENTITIES_EP ++ "/" ++ id

/-- Embedding of endpointForPermissions from the identity module. -/
def endpointForPermissions (id : String) : String := endpointForId id ++ "/permissions"

/-- Embedding of IdentityImpl.listGrantedPermissions from the identity
module: it awaits one GET of the permissions endpoint, wraps each raw record
into a typed Permission object via mk (standing for new Permission with the
client), and relays the token unchanged.  The second component logs the
endpoints fetched. -/
def listGrantedPermissions {π ρ : Type} (mk : π → ρ)
    (fetch : String → Page π) (identityId : String) : Page ρ × List String :=
  let ep := endpointForPermissions identityId
  let podPage := fetch ep
  ({ results := podPage.results.map mk, nextPageToken := podPage.nextPageToken }, [ep])

/-- The sole termination signal of pagination: the token is absent or the
empty string. -/
def tokenDone : Option String → Bool
  | none => true
  | some t => t.isEmpty

/-- Modelled from the spec: the pagination loop (the paginate convenience is
absent from the provided sources).  The initial request carries no cursor;
each later request echoes the previous nextPageToken; the loop stops exactly
when a page carries an absent or empty token.  The result pairs the records
yielded, in order, with the log of cursor tokens used for the fetches.  Fuel
bounds the number of fetches. -/
def paginateGo {α : Type} (fetch : Option String → Page α) :
    Nat → Option String → List α × List (Option String)
  | 0, _ => ([], [])
  | fuel + 1, tok =>
    let page := fetch tok
    if tokenDone page.nextPageToken then (page.results, [tok])
    else
      let next := paginateGo fetch fuel page.nextPageToken
      (page.results ++ next.1, tok :: next.2)

/-- Modelled from the spec: paginate starts the cursor loop with no token. -/
def paginate {α : Type} (fetch : Option String → Page α) (fuel : Nat) :
    List α × List (Option String) :=
  paginateGo fetch fuel none

/-- The server serves, starting from the given cursor token, exactly this
finite sequence of pages: each page is fetched by the token chained from its
predecessor, every page except the last carries a nonempty token, and the
last page carries an absent or empty token. -/
def servesFrom {α : Type} [DecidableEq α] (fetch : Option String → Page α) :
    Option String → List (Page α) → Bool
  | _, [] => true
  | tok, [p] => decide (fetch tok = p) && tokenDone p.nextPageToken
  | tok, p :: q :: rest =>
    decide (fetch tok = p) && !tokenDone p.nextPageToken &&
      servesFrom fetch p.nextPageToken (q :: rest)

/-- Embedding of PODIdentity from the identity module (token verifiers kept
as opaque strings). -/
structure PODIdentity where
  id : String
  createdAt : String
  tokenVerifiers : List String
deriving DecidableEq, Repr

/-- Embedding of the Identity object state: the fields set by the
constructor from a raw representation.  The private client field is not an
own enumerable property and takes no part in field assignment. -/
structure IdentityObj where
  id : String
  createdAt : String
  tokenVerifiers : List String
deriving DecidableEq, Repr, Inhabited

/-- Embedding of the Identity constructor: copy id, createdAt (the date kept
as its string) and tokenVerifiers out of the raw representation. -/
def identityOfPod (pod : PODIdentity) : IdentityObj :=
  { id := pod.id, createdAt := pod.createdAt, tokenVerifiers := pod.tokenVerifiers }

/-- Embedding of the field assignment in Identity.update: every own
enumerable field of the source object (id, createdAt, tokenVerifiers, the
latter two declared readonly) is assigned onto the target object. -/
def objectAssignIdentity (target src : IdentityObj) : IdentityObj :=
  { target with id := src.id, createdAt := src.createdAt, tokenVerifiers := src.tokenVerifiers }

/-- Embedding of Identity.update over an explicit object heap: the server
representation is turned into a fresh Identity by IdentityImpl.update, its
fields are assigned onto the object at the given reference, and that very
reference is returned. -/
def identityUpdate (heap : List IdentityObj) (ref : Nat) (serverPod : PODIdentity) :
    List IdentityObj × Nat :=
  (heap.set ref (objectAssignIdentity (heap.getD ref default) (identityOfPod serverPod)), ref)

/-! ## Helper lemmas -/

/-- Folding append over a chunk list concatenates the chunks. -/
theorem foldl_append_eq_join (chunks : List Chunk) :
    ∀ acc : List Byte, chunks.foldl (fun acc c => acc ++ c) acc = acc ++ chunks.join := by
  induction chunks with
  | nil => intro acc; simp
  | cons c rest ih => intro acc; simp [ih, List.append_assoc]

/-- Pull-iterating an active session with a success status yields the
concatenation of its chunks. -/
theorem pullAll_active_ok (status : Nat) (eb : String)
    (hok : isSuccessStatus status = true) :
    ∀ chunks : List Chunk,
      pullAll (activeDownload status eb none chunks) = Except.ok chunks.join := by
  intro chunks
  induction chunks with
  | nil =>
    rw [pullAll]
    split <;> rename_i h2 <;> simp [pull, activeDownload, hok] at h2 <;> simp
  | cons c rest ih =>
    rw [pullAll]
    split <;> rename_i h2 <;> simp [pull, activeDownload, hok] at h2
    obtain ⟨hc, hs⟩ := h2
    subst hc
    subst hs
    simp only [activeDownload] at ih
    simp [ih]

/-- Piping an active session with a success status into the collecting sink
appends the concatenation of its chunks to the sink state. -/
theorem pipeTo_collect (status : Nat) (eb : String)
    (hok : isSuccessStatus status = true) :
    ∀ (chunks : List Chunk) (acc : List Byte),
      pipeTo collectSink acc (activeDownload status eb none chunks) =
        (Except.ok (), acc ++ chunks.join) := by
  intro chunks
  induction chunks with
  | nil =>
    intro acc
    rw [pipeTo]
    split <;> rename_i h2 <;> simp [pull, activeDownload, hok] at h2 <;> simp
  | cons c rest ih =>
    intro acc
    rw [pipeTo]
    split <;> rename_i h2 <;> simp [pull, activeDownload, hok] at h2
    obtain ⟨hc, hs⟩ := h2
    subst hc
    subst hs
    simp only [activeDownload] at ih
    simp [collectSink, ih, List.append_assoc]

/-- Piping an active session whose transport read fails after its chunks
delivers exactly those chunks and then surfaces the network error. -/
theorem pipeTo_read_error (status : Nat) (eb rm : String)
    (hok : isSuccessStatus status = true) :
    ∀ (chunks : List Chunk) (acc : List Byte),
      pipeTo collectSink acc (activeDownload status eb (some rm) chunks) =
        (Except.error (DownloadError.network rm), acc ++ chunks.join) := by
  intro chunks
  induction chunks with
  | nil =>
    intro acc
    rw [pipeTo]
    split <;> rename_i h2 <;> simp [pull, activeDownload, hok] at h2 <;> simp [h2]
  | cons c rest ih =>
    intro acc
    rw [pipeTo]
    split <;> rename_i h2 <;> simp [pull, activeDownload, hok] at h2
    obtain ⟨hc, hs⟩ := h2
    subst hc
    subst hs
    simp only [activeDownload] at ih
    simp [collectSink, ih, List.append_assoc]

/-- A pipe aborted after k chunks delivers exactly the first k chunks to the
sink and then rejects with the abort error. -/
theorem pipeToAbortAfter_collect (status : Nat) (eb : String)
    (hok : isSuccessStatus status = true) :
    ∀ (k : Nat) (chunks : List Chunk) (acc : List Byte), k < chunks.length →
      pipeToAbortAfter collectSink acc k (activeDownload status eb none chunks) =
        (Except.error DownloadError.aborted, acc ++ (chunks.take k).join) := by
  intro k
  induction k with
  | zero =>
    intro chunks acc _
    rw [pipeToAbortAfter, pipeTo]
    simp [pull, abort, activeDownload]
  | succ k ih =>
    intro chunks acc hk
    cases chunks with
    | nil => simp at hk
    | cons c rest =>
      have hk2 : k < rest.length := by simp at hk; omega
      have hih := ih rest (acc ++ c) hk2
      simp only [activeDownload] at hih
      simp [pipeToAbortAfter, pull, activeDownload, hok, collectSink, hih, List.append_assoc]

/-- The pagination loop over a served page chain yields all records in order
with one fetch per page. -/
theorem paginateGo_serves {α : Type} [DecidableEq α] (fetch : Option String → Page α) :
    ∀ (pages : List (Page α)) (tok : Option String) (fuel : Nat),
      pages ≠ [] → servesFrom fetch tok pages = true → pages.length ≤ fuel →
      paginateGo fetch fuel tok =
        ((pages.map Page.results).join,
          tok :: pages.dropLast.map Page.nextPageToken) := by
  intro pages
  induction pages with
  | nil => intro tok fuel hne _ _; exact absurd rfl hne
  | cons p tail ih =>
    intro tok fuel _ hserves hfuel
    cases tail with
    | nil =>
      obtain ⟨f, rfl⟩ : ∃ f, fuel = f + 1 := ⟨fuel - 1, by simp at hfuel; omega⟩
      simp only [servesFrom, Bool.and_eq_true, decide_eq_true_eq] at hserves
      obtain ⟨hf, ht⟩ := hserves
      simp [paginateGo, hf, ht]
    | cons q rest =>
      obtain ⟨f, rfl⟩ : ∃ f, fuel = f + 1 := ⟨fuel - 1, by simp at hfuel; omega⟩
      simp only [servesFrom, Bool.and_eq_true, Bool.not_eq_true', decide_eq_true_eq] at hserves
      obtain ⟨⟨hf, ht⟩, hrest⟩ := hserves
      have hlen : (q :: rest).length ≤ f := by simp at hfuel ⊢; omega
      have hih := ih p.nextPageToken f (by simp) hrest hlen
      simp [paginateGo, hf, ht, hih]

/-! ## The claims -/

/-- C1: every byte sequence served by the storage endpoint for a document id,
however it is chunked, is reproduced exactly by consuming downloadDocument:
pull-iterating the chunks and concatenating yields the sequence, and piping
into the collecting sink leaves the sink holding the same sequence, byte for
byte and in order. -/
theorem download_roundtrip (transport : HttpRequest → HttpResponse)
    (storageBase auth id : String) (chunks : List Chunk) (data : List Byte)
    (hresp : transport (downloadRequest storageBase auth id) =
      { status := 200, location := none, chunks := chunks, errorBody := "",
        readError := none })
    (hdata : chunks.join = data) :
    pullAll (downloadDocument transport storageBase auth id) = Except.ok data ∧
    pipeTo collectSink [] (downloadDocument transport storageBase auth id) =
      (Except.ok (), data) := by
  have hsess : downloadDocument transport storageBase auth id =
      activeDownload 200 "" none chunks := by
    simp [downloadDocument, resolveRedirect, hresp, startSession, activeDownload]
  rw [hsess, ← hdata]
  refine ⟨pullAll_active_ok 200 "" (by decide) chunks, ?_⟩
  simpa using pipeTo_collect 200 "" (by decide) chunks []

theorem download_roundtrip_witness :
    pullAll (downloadDocument
      (fun _ => { status := 200, location := none, chunks := [[34, 34], [], [34]],
                  errorBody := "", readError := none })
      "https://storage" "Bearer token" "doc1") = Except.ok [34, 34, 34] ∧
    pipeTo collectSink [] (downloadDocument
      (fun _ => { status := 200, location := none, chunks := [[34, 34], [], [34]],
                  errorBody := "", readError := none })
      "https://storage" "Bearer token" "doc1") = (Except.ok (), [34, 34, 34]) :=
  download_roundtrip
    (fun _ => { status := 200, location := none, chunks := [[34, 34], [], [34]],
                errorBody := "", readError := none })
    "https://storage" "Bearer token" "doc1" [[34, 34], [], [34]] [34, 34, 34] rfl (by decide)

/-- C2: aborting a download session after k chunks were handed over delivers
no further bytes to the sink (only the prefix of k chunks is ever received),
the pending pipe rejects with the abort-specific error, the aborted flag
becomes true, further aborts are no-ops, and any later pull rejects with the
abort error. -/
theorem abort_stops_delivery (status : Nat) (eb : String) (chunks : List Chunk)
    (k : Nat) (hok : isSuccessStatus status = true) (hk : k < chunks.length) :
    pipeToAbortAfter collectSink [] k (activeDownload status eb none chunks) =
      (Except.error DownloadError.aborted, (chunks.take k).join) ∧
    abortedFlag (abort (activeDownload status eb none chunks)) = true ∧
    abort (abort (activeDownload status eb none chunks)) =
      abort (activeDownload status eb none chunks) ∧
    pull (abort (activeDownload status eb none chunks)) =
      Except.error DownloadError.aborted := by
  refine ⟨?_, ?_, ?_, ?_⟩
  · simpa using pipeToAbortAfter_collect status eb hok k chunks [] hk
  · simp [abort, abortedFlag, activeDownload]
  · simp [abort, activeDownload]
  · simp [pull, abort, activeDownload]

theorem abort_stops_delivery_witness :
    pipeToAbortAfter collectSink [] 1 (activeDownload 200 "" none [[1], [2], [3]]) =
      (Except.error DownloadError.aborted, [1]) ∧
    abortedFlag (abort (activeDownload 200 "" none [[1], [2], [3]])) = true := by
  have h := abort_stops_delivery 200 "" [[1], [2], [3]] 1 (by decide) (by decide)
  exact ⟨by simpa using h.1, h.2.1⟩

/-- C3: a request whose initial response is a redirect status with a location
header is re-issued against the location exactly once, with the same method
and the same authorization header, and the caller observes only the final
response: the redirect response itself is never part of the result. -/
theorem redirect_single_hop (transport : HttpRequest → HttpResponse)
    (req : HttpRequest) (loc : String)
    (hredir : isRedirectStatus (transport req).status = true)
    (hloc : (transport req).location = some loc) :
    resolveRedirect transport req =
      (transport { req with url := loc }, [req, { req with url := loc }]) ∧
    ({ req with url := loc } : HttpRequest).method = req.method ∧
    ({ req with url := loc } : HttpRequest).authHeader = req.authHeader := by
  refine ⟨?_, rfl, rfl⟩
  simp [resolveRedirect, hloc, hredir]

theorem redirect_single_hop_witness :
    resolveRedirect
      (fun r => if r.url = "identities/me"
        then { status := 307, location := some "identities/ID1", chunks := [],
               errorBody := "", readError := none }
        else { status := 200, location := none, chunks := [[7]], errorBody := "",
               readError := none })
      { method := "GET", url := "identities/me", authHeader := "Bearer token" } =
      ({ status := 200, location := none, chunks := [[7]], errorBody := "",
         readError := none },
        [{ method := "GET", url := "identities/me", authHeader := "Bearer token" },
         { method := "GET", url := "identities/ID1", authHeader := "Bearer token" }]) := by
  have h := redirect_single_hop
    (fun r => if r.url = "identities/me"
      then { status := 307, location := some "identities/ID1", chunks := [],
             errorBody := "", readError := none }
      else { status := 200, location := none, chunks := [[7]], errorBody := "",
             readError := none })
    { method := "GET", url := "identities/me", authHeader := "Bearer token" }
    "identities/ID1" (by decide) (by decide)
  rw [h.1]
  decide

/-- C4: a download whose response status is a client or server error fails
the session before any chunk is delivered: the first pull rejects instead of
yielding a chunk, the pipe rejects with the sink left empty, and the surfaced
error embeds the status and the textual error body of the response. -/
theorem error_status_fails_session (transport : HttpRequest → HttpResponse)
    (storageBase auth id : String) (status : Nat) (eb : String)
    (hstatus : 400 ≤ status)
    (hresp : transport (downloadRequest storageBase auth id) =
      { status := status, location := none, chunks := [], errorBody := eb,
        readError := none }) :
    pull (downloadDocument transport storageBase auth id) =
      Except.error (DownloadError.http status eb) ∧
    pullAll (downloadDocument transport storageBase auth id) =
      Except.error (DownloadError.http status eb) ∧
    pipeTo collectSink [] (downloadDocument transport storageBase auth id) =
      (Except.error (DownloadError.http status eb), []) := by
  have hfail : isSuccessStatus status = false := by
    have h1 : ¬ status < 300 := by omega
    simp [isSuccessStatus, h1]
  have hsess : downloadDocument transport storageBase auth id =
      activeDownload status eb none [] := by
    simp [downloadDocument, resolveRedirect, hresp, startSession, activeDownload]
  rw [hsess]
  refine ⟨?_, ?_, ?_⟩
  · simp [pull, activeDownload, hfail]
  · rw [pullAll]
    split <;> rename_i h2 <;> simp [pull, activeDownload, hfail] at h2 <;> simp [h2]
  · rw [pipeTo]
    split <;> rename_i h2 <;> simp [pull, activeDownload, hfail] at h2 <;> simp [h2]

theorem error_status_fails_session_witness :
    pull (downloadDocument
      (fun _ => { status := 404, location := none, chunks := [], errorBody := "not found",
                  readError := none })
      "https://storage" "Bearer token" "bogus") =
      Except.error (DownloadError.http 404 "not found") ∧
    pipeTo collectSink [] (downloadDocument
      (fun _ => { status := 404, location := none, chunks := [], errorBody := "not found",
                  readError := none })
      "https://storage" "Bearer token" "bogus") =
      (Except.error (DownloadError.http 404 "not found"), []) := by
  have h := error_status_fails_session
    (fun _ => { status := 404, location := none, chunks := [], errorBody := "not found",
                readError := none })
    "https://storage" "Bearer token" "bogus" 404 "not found" (by decide) rfl
  exact ⟨h.1, h.2.2⟩

/-- C5: uploadDocument produces a single multipart body whose content-type
header carries the boundary token and which has exactly two parts: a metadata
part carrying exactly the serialized params with content type
application/json when params are present, or an empty text/plain part when
params is null, and a data part with content type application/octet-stream
carrying exactly the payload bytes; an incremental source produces the same
data part from its chunks in order. -/
theorem upload_multipart_shape (boundary json : String) (data : List Byte)
    (params : Option String) (chunks : List Chunk) :
    (uploadDocument boundary (some json) data).request =
      { contentTypeHeader := "multipart/form-data; boundary=" ++ boundary,
        parts := [{ name := "metadata", contentType := "application/json",
                    content := PartBody.text json },
                  { name := "data", contentType := "application/octet-stream",
                    content := PartBody.bytes data }] } ∧
    (uploadDocument boundary none data).request =
      { contentTypeHeader := "multipart/form-data; boundary=" ++ boundary,
        parts := [{ name := "metadata", contentType := "text/plain",
                    content := PartBody.text "" },
                  { name := "data", contentType := "application/octet-stream",
                    content := PartBody.bytes data }] } ∧
    encodeUploadStream boundary params chunks =
      { contentTypeHeader := "multipart/form-data; boundary=" ++ boundary,
        parts := [metadataPart params, dataPart chunks.join] } := by
  refine ⟨rfl, rfl, ?_⟩
  simp [encodeUploadStream, dataPart, foldl_append_eq_join]

/-- C6: the finished future of an UploadTask resolves with the created
document representation exactly when the server replies 201; any other status
rejects the task with the response body as error detail, and a handle can
only ever be produced from a 201 response. -/
theorem upload_finished_requires_201 (boundary : String) (params : Option String)
    (data : List Byte) (resp : UploadResponse) :
    (resp.status = 201 → (uploadDocument boundary params data).finished resp =
      Except.ok resp.body) ∧
    (resp.status ≠ 201 → (uploadDocument boundary params data).finished resp =
      Except.error (UploadError.http resp.status resp.body)) ∧
    (∀ doc : String,
      (uploadDocument boundary params data).finished resp = Except.ok doc →
      resp.status = 201) := by
  refine ⟨fun h => ?_, fun h => ?_, fun doc h => ?_⟩
  · simp [uploadDocument, finishUpload, h]
  · simp [uploadDocument, finishUpload, h]
  · by_contra hne
    simp [uploadDocument, finishUpload, hne] at h

theorem upload_finished_requires_201_witness :
    (uploadDocument "b0" none [1]).finished { status := 201, body := "doc" } =
      Except.ok "doc" ∧
    (uploadDocument "b0" none [1]).finished { status := 400, body := "bad" } =
      Except.error (UploadError.http 400 "bad") :=
  ⟨(upload_finished_requires_201 "b0" none [1] { status := 201, body := "doc" }).1 rfl,
   (upload_finished_requires_201 "b0" none [1] { status := 400, body := "bad" }).2.1
     (by decide)⟩

/-- C7: when the caller-supplied sink reports a write failure during a
push-to-sink download, the pipe rejects with a sink error that preserves the
original message, and this error is distinguishable from both an HTTP status
failure and a transport read failure, the latter being surfaced as a network
error instead. -/
theorem sink_error_forwarded (status : Nat) (eb m rm : String) (c : Chunk)
    (rest : List Chunk) (acc : List Byte)
    (hok : isSuccessStatus status = true) :
    pipeTo (failingSink m) acc (activeDownload status eb none (c :: rest)) =
      (Except.error (DownloadError.sink m), acc) ∧
    (∀ st b, DownloadError.sink m ≠ DownloadError.http st b) ∧
    (∀ m2, DownloadError.sink m ≠ DownloadError.network m2) ∧
    pipeTo collectSink acc (activeDownload status eb (some rm) (c :: rest)) =
      (Except.error (DownloadError.network rm), acc ++ (c :: rest).join) := by
  refine ⟨?_, fun st b => by simp, fun m2 => by simp, ?_⟩
  · rw [pipeTo]
    split <;> rename_i h2 <;> simp [pull, activeDownload, hok] at h2
    obtain ⟨hc, hs⟩ := h2
    subst hc
    simp [failingSink]
  · exact pipeTo_read_error status eb rm hok (c :: rest) acc

theorem sink_error_forwarded_witness :
    pipeTo (failingSink "whoops") [] (activeDownload 200 "" none [[1], [2]]) =
      (Except.error (DownloadError.sink "whoops"), []) ∧
    DownloadError.sink "whoops" ≠ DownloadError.network "whoops" := by
  have h := sink_error_forwarded 200 "" "whoops" "reset" [1] [[2]] [] (by decide)
  exact ⟨h.1, h.2.2.1 "whoops"⟩

/-- C8: a list page fetch is a pure relay: listGrantedPermissions issues
exactly one request against the permissions endpoint, returns exactly one
typed record per server record in the same order with no re-sorting,
deduplication, insertion or dropping, and returns the server token
unchanged. -/
theorem listGrantedPermissions_pure_relay {π ρ : Type} (mk : π → ρ)
    (fetch : String → Page π) (identityId : String) :
    (listGrantedPermissions mk fetch identityId).2 =
      [endpointForPermissions identityId] ∧
    (listGrantedPermissions mk fetch identityId).1.results =
      (fetch (endpointForPermissions identityId)).results.map mk ∧
    (listGrantedPermissions mk fetch identityId).1.results.length =
      (fetch (endpointForPermissions identityId)).results.length ∧
    (listGrantedPermissions mk fetch identityId).1.nextPageToken =
      (fetch (endpointForPermissions identityId)).nextPageToken := by
  refine ⟨rfl, rfl, ?_, rfl⟩
  simp [listGrantedPermissions]

/-- C9: for a finite server page chain where exactly the last page carries an
absent or empty token, paginate yields the concatenation of all page results
in order and terminates, fetching once with no cursor and then once per
chained token: each token is used exactly once and no fetch is made beyond
the last token; an empty intermediate page whose token is present is
continued past. -/
theorem paginate_relays_pages_once {α : Type} [DecidableEq α]
    (fetch : Option String → Page α) (pages : List (Page α)) (fuel : Nat)
    (hne : pages ≠ []) (hserves : servesFrom fetch none pages = true)
    (hfuel : pages.length ≤ fuel) :
    paginate fetch fuel =
      ((pages.map Page.results).join,
        none :: pages.dropLast.map Page.nextPageToken) :=
  paginateGo_serves fetch pages none fuel hne hserves hfuel

theorem paginate_relays_pages_once_witness :
    paginate
      (fun tok =>
        if tok = some "a" then { results := ([] : List Nat), nextPageToken := some "b" }
        else if tok = some "b" then { results := [3], nextPageToken := none }
        else if tok = none then { results := [1, 2], nextPageToken := some "a" }
        else { results := [], nextPageToken := none })
      3 = ([1, 2, 3], [none, some "a", some "b"]) := by
  have h := paginate_relays_pages_once
    (fun tok =>
      if tok = some "a" then { results := ([] : List Nat), nextPageToken := some "b" }
      else if tok = some "b" then { results := [3], nextPageToken := none }
      else if tok = none then { results := [1, 2], nextPageToken := some "a" }
      else { results := [], nextPageToken := none })
    [{ results := [1, 2], nextPageToken := some "a" },
     { results := [], nextPageToken := some "b" },
     { results := [3], nextPageToken := none }]
    3 (by decide) (by decide) (by decide)
  rw [h]
  decide

/-- C10: identity.update mutates the identity object in place: every field of
the representation returned by the server, tokenVerifiers included, is
assigned onto the object behind the same reference, no new object is
allocated on the heap, and the very same reference is returned. -/
theorem identity_update_in_place (heap : List IdentityObj) (ref : Nat)
    (pod : PODIdentity) (h : ref < heap.length) :
    (identityUpdate heap ref pod).2 = ref ∧
    (identityUpdate heap ref pod).1.length = heap.length ∧
    (identityUpdate heap ref pod).1[ref]? = some (identityOfPod pod) ∧
    (identityOfPod pod).tokenVerifiers = pod.tokenVerifiers := by
  refine ⟨rfl, by simp [identityUpdate], ?_, rfl⟩
  simp [identityUpdate, objectAssignIdentity, identityOfPod, List.getElem?_set, h]

theorem identity_update_in_place_witness :
    (identityUpdate [{ id := "x", createdAt := "y", tokenVerifiers := [] }] 0
      { id := "a", createdAt := "b", tokenVerifiers := ["v"] }).2 = 0 ∧
    (identityUpdate [{ id := "x", createdAt := "y", tokenVerifiers := [] }] 0
      { id := "a", createdAt := "b", tokenVerifiers := ["v"] }).1[0]? =
      some { id := "a", createdAt := "b", tokenVerifiers := ["v"] } := by
  have h := identity_update_in_place
    [{ id := "x", createdAt := "y", tokenVerifiers := [] }] 0
    { id := "a", createdAt := "b", tokenVerifiers := ["v"] } (by decide)
  exact ⟨h.1, by simpa [identityOfPod] using h.2.2.1⟩

end Parcel
